import Mathlib

/-!
Verification of the extraction core of `aws-textract-redmart`.

The repository has two near-identical Python files:
  * `src/aws-textract-redmart.py`   (original script; embedded here with primed names)
  * `src/aws_textract_redmart.py`   (refactored module; embedded here with the original names)

The functions embedded below are `parse_redmart_date`, `locate_invoice_date`,
`locate_invoice_table`, `export_textract_table_to_csv` and the `__main__`
batch loop.  Tables are embedded as `List (List String)` (the row grid that
`textractor.Table.to_pandas` produces), documents as their key/value list,
dates as a `year/month/day` record.  Code that can raise a Python exception
is embedded with `Option`/`Except`: `none`/`.error` means the Python code
raises at that point.
-/

/-! ### Characters and strings

`parse_redmart_date` calls `datetime.strptime`, whose format directives are
compiled by CPython's `_strptime` module into a regular expression that is
matched case-insensitively at the start of the input; the match must consume
the whole string ("unconverted data remains" otherwise).  The character
classes below mirror the regex pieces used by the three formats in the
source (`%d`, `%m`, `%Y`, `%B`, `%A`, literal characters, and whitespace).
-/

/-- ASCII decimal digit (regex `\d` on the inputs at hand). -/
def isAsciiDigit (c : Char) : Bool := decide (48 ≤ c.toNat) && decide (c.toNat ≤ 57)

/-- Digit `1`-`9` (regex class `[1-9]`). -/
def isDigit19 (c : Char) : Bool := decide (49 ≤ c.toNat) && decide (c.toNat ≤ 57)

/-- Numeric value of a digit character. -/
def digitVal (c : Char) : Nat := c.toNat - 48

/-- The digit character for `k` (`0 ≤ k ≤ 9`). -/
def digitCharOf (k : Nat) : Char := Char.ofNat (48 + k)

/-- Python regex `\s` (ASCII part; the concrete strings in this development
contain no non-ASCII whitespace). -/
def pyIsSpace (c : Char) : Bool :=
  c == ' ' || c == '\t' || c == '\n' || c == '\r' || c == '\x0b' || c == '\x0c'

/-- Python `str.lower()` (ASCII case folding, which is all the source needs). -/
def strLower (s : String) : String := ⟨s.data.map Char.toLower⟩

/-- Python `str.strip()`: remove leading and trailing whitespace. -/
def pyStrip (s : String) : String :=
  ⟨((s.data.dropWhile pyIsSpace).reverse.dropWhile pyIsSpace).reverse⟩

/-- Python `pat in hay` for strings: contiguous-subsequence test. -/
def listContainsSeq (pat : List Char) : List Char → Bool
  | [] => pat.isEmpty
  | c :: cs => pat.isPrefixOf (c :: cs) || listContainsSeq pat cs

/-! ### Calendar arithmetic (the fragment of `datetime.date` the source uses) -/

/-- Gregorian leap year, as in Python's `calendar.isleap`. -/
def isLeapYear (y : Nat) : Bool := y % 4 == 0 && (y % 100 != 0 || y % 400 == 0)

/-- Number of days in month `m` of year `y` (months are 1-based). -/
def daysInMonth (y m : Nat) : Nat :=
  if m == 2 then (if isLeapYear y then 29 else 28)
  else if m == 4 || m == 6 || m == 9 || m == 11 then 30
  else 31

/-- The check performed by the `datetime` constructor: `datetime(y, m, d)`
raises `ValueError` unless this holds (`MINYEAR = 1`, `MAXYEAR = 9999`). -/
def validYMD (y m d : Nat) : Bool :=
  decide (1 ≤ y) && decide (y ≤ 9999) && decide (1 ≤ m) && decide (m ≤ 12) &&
  decide (1 ≤ d) && decide (d ≤ daysInMonth y m)

/-- A Python `datetime` as far as the source observes it: the calendar date
(the time part is always midnight and never read). -/
structure PyDate where
  year : Nat
  month : Nat
  day : Nat
deriving DecidableEq, Repr

/-- The partially-filled time record `_strptime` accumulates while matching;
unmentioned fields keep CPython's defaults (1900-01-01). -/
structure TM where
  year : Nat := 1900
  month : Nat := 1
  day : Nat := 1
deriving DecidableEq, Repr

/-! ### `datetime.strptime`, specialised to the directives the source uses

CPython translates a format string into a regex:
  * `%d` becomes `(3[01]|[12]\d|0[1-9]|[1-9])`
  * `%m` becomes `(1[0-2]|0[1-9]|[1-9])`
  * `%Y` becomes `(\d\d\d\d)`
  * `%B` / `%A` become an alternation of the (lowercased) English month /
    weekday names, matched case-insensitively
  * a whitespace run in the format becomes `\s+`
  * any other character is matched literally
and then `match`es it against the input with backtracking; the leftmost
(priority-first) complete match of the pattern is taken, and parsing fails
if that match does not consume the entire input.  Alternatives below are
returned as lists ordered by regex priority, so the head of `runDirs` is
exactly the match the regex engine commits to. -/

/-- Alternatives of the `%d` day regex `3[01]|[12]\d|0[1-9]|[1-9]`, in
priority order, each with the value read and the remaining input. -/
def dayAlts : List Char → List (Nat × List Char)
  | c1 :: c2 :: rest =>
      (if c1 == '3' && (c2 == '0' || c2 == '1') then [(30 + digitVal c2, rest)] else []) ++
      (if (c1 == '1' || c1 == '2') && isAsciiDigit c2 then
        [(10 * digitVal c1 + digitVal c2, rest)] else []) ++
      (if c1 == '0' && isDigit19 c2 then [(digitVal c2, rest)] else []) ++
      (if isDigit19 c1 then [(digitVal c1, c2 :: rest)] else [])
  | [c1] => if isDigit19 c1 then [(digitVal c1, [])] else []
  | [] => []

/-- Alternatives of the `%m` month regex `1[0-2]|0[1-9]|[1-9]`. -/
def monthAlts : List Char → List (Nat × List Char)
  | c1 :: c2 :: rest =>
      (if c1 == '1' && (c2 == '0' || c2 == '1' || c2 == '2') then
        [(10 + digitVal c2, rest)] else []) ++
      (if c1 == '0' && isDigit19 c2 then [(digitVal c2, rest)] else []) ++
      (if isDigit19 c1 then [(digitVal c1, c2 :: rest)] else [])
  | [c1] => if isDigit19 c1 then [(digitVal c1, [])] else []
  | [] => []

/-- The `%Y` year regex `\d\d\d\d`: exactly four digits. -/
def yearAlts : List Char → List (Nat × List Char)
  | c1 :: c2 :: c3 :: c4 :: rest =>
      if isAsciiDigit c1 && isAsciiDigit c2 && isAsciiDigit c3 && isAsciiDigit c4 then
        [(((digitVal c1 * 10 + digitVal c2) * 10 + digitVal c3) * 10 + digitVal c4, rest)]
      else []
  | _ => []

/-- If `pat` (already lowercase) is a case-insensitive prefix of the input,
return the remaining input. -/
def ciPrefixDrop : List Char → List Char → Option (List Char)
  | [], cs => some cs
  | _ :: _, [] => none
  | p :: ps, c :: cs => if p == Char.toLower c then ciPrefixDrop ps cs else none

/-- Match the first of `names` that occurs (case-insensitively) as a prefix
of the input; `idx` numbers the names.  No English month or weekday name is
a prefix of another, so at most one name can match and the alternation
order used by `_strptime` is irrelevant. -/
def matchNameIdx (names : List String) (idx : Nat) (cs : List Char) : List (Nat × List Char) :=
  match names with
  | [] => []
  | n :: ns =>
    match ciPrefixDrop n.data cs with
    | some rest => [(idx, rest)]
    | none => matchNameIdx ns (idx + 1) cs

/-- English month names as `_strptime` stores them (lowercased). -/
def monthNamesLower : List String :=
  ["january", "february", "march", "april", "may", "june",
   "july", "august", "september", "october", "november", "december"]

/-- English weekday names as `_strptime` stores them (lowercased). -/
def weekdayNamesLower : List String :=
  ["monday", "tuesday", "wednesday", "thursday", "friday", "saturday", "sunday"]

/-- `%B`: a full month name; the value is the 1-based month number. -/
def matchMonthName (cs : List Char) : List (Nat × List Char) :=
  (matchNameIdx monthNamesLower 0 cs).map (fun p => (p.1 + 1, p.2))

/-- `%A`: a full weekday name (its value is parsed but ignored when the
date is complete, which is the case for the second source format). -/
def matchWeekdayName (cs : List Char) : List (Nat × List Char) :=
  matchNameIdx weekdayNamesLower 0 cs

/-- `\s+`: one or more whitespace characters, consumed greedily.  (The
regex could backtrack to a shorter run, but in the three source formats the
element after `\s+` never matches whitespace, so greedy consumption is
exact.) -/
def wsAlts : List Char → List (Unit × List Char)
  | c :: cs => if pyIsSpace c then [((), cs.dropWhile pyIsSpace)] else []
  | [] => []

/-- The format directives appearing in the source's three format strings. -/
inductive Directive where
  | dayD
  | monthD
  | yearD
  | monthNameD
  | weekdayNameD
  | litD (c : Char)
  | wsD
deriving DecidableEq, Repr

/-- One directive step: all ways the directive can match a prefix of the
input, in regex priority order, updating the time record. -/
def stepDir : Directive → TM → List Char → List (TM × List Char)
  | .dayD, tm, cs => (dayAlts cs).map (fun p => ({tm with day := p.1}, p.2))
  | .monthD, tm, cs => (monthAlts cs).map (fun p => ({tm with month := p.1}, p.2))
  | .yearD, tm, cs => (yearAlts cs).map (fun p => ({tm with year := p.1}, p.2))
  | .monthNameD, tm, cs => (matchMonthName cs).map (fun p => ({tm with month := p.1}, p.2))
  | .weekdayNameD, tm, cs => (matchWeekdayName cs).map (fun p => (tm, p.2))
  | .litD c, tm, cs =>
    match cs with
    | c' :: rest => if c' == c then [(tm, rest)] else []
    | [] => []
  | .wsD, tm, cs => (wsAlts cs).map (fun p => (tm, p.2))

/-- Concatenation of the continuations of each alternative (backtracking). -/
def listFlat : List (TM × List Char) → (TM × List Char → List (TM × List Char)) → List (TM × List Char)
  | [], _ => []
  | x :: xs, f => f x ++ listFlat xs f

/-- All complete matches of a directive list against the input, in regex
priority order. -/
def runDirs : List Directive → TM → List Char → List (TM × List Char)
  | [], tm, cs => [(tm, cs)]
  | d :: ds, tm, cs => listFlat (stepDir d tm cs) (fun p => runDirs ds p.1 p.2)

/-- `datetime(year, month, day)`: `none` models the `ValueError` raised on
an out-of-range component (e.g. February 30). -/
def datetimeOf (tm : TM) : Option PyDate :=
  if validYMD tm.year tm.month tm.day then some ⟨tm.year, tm.month, tm.day⟩ else none

/-- `datetime.strptime(value, fmt)` for a directive list: take the regex
engine's committed match (the priority-first one), require it to consume
the whole input, then build the `datetime`.  `none` models a raised
`ValueError`. -/
def strptimeD (dirs : List Directive) (value : String) : Option PyDate :=
  match runDirs dirs {} value.data with
  | [] => none
  | (tm, rest) :: _ => if rest.isEmpty then datetimeOf tm else none

/-- `'%d %B, %Y'` (e.g. `22 June, 2018`). -/
def fmt_d_B_Y : List Directive :=
  [.dayD, .wsD, .monthNameD, .litD ',', .wsD, .yearD]

/-- `'%A, %d %B, %Y'` (e.g. `Friday, 22 June, 2018`). -/
def fmt_A_d_B_Y : List Directive :=
  [.weekdayNameD, .litD ',', .wsD, .dayD, .wsD, .monthNameD, .litD ',', .wsD, .yearD]

/-- `'%Y-%m-%d'` (e.g. `2019-10-31`). -/
def fmt_Y_m_d : List Directive :=
  [.yearD, .litD '-', .monthD, .litD '-', .dayD]

/-- The `formats` list of `parse_redmart_date` (source line 29). -/
def redmartFormats : List (List Directive) := [fmt_d_B_Y, fmt_A_d_B_Y, fmt_Y_m_d]

/-- The `for fmt in formats: try ... except ValueError: continue` loop. -/
def tryFormats : List (List Directive) → String → Option PyDate
  | [], _ => none
  | f :: fs, value =>
    match strptimeD f value with
    | some d => some d
    | none => tryFormats fs value

/-- `parse_redmart_date` (src/aws_textract_redmart.py lines 15-40). -/
def parse_redmart_date (value : String) : Option PyDate :=
  tryFormats redmartFormats value


/-! ### The document model and `locate_invoice_date` -/

/-- One entry of `document.key_values`: the text of the key and of the
value. -/
structure KeyValue where
  key : String
  value : String
deriving DecidableEq, Repr

/-- `locate_invoice_date` (src/aws_textract_redmart.py lines 44-65): walk
the key/value pairs in order; when a key contains `"date"`
(case-insensitively), strip the value and try to parse it; return the
first parse that succeeds. -/
def locate_invoice_date : List KeyValue → Option PyDate
  | [] => none
  | kv :: rest =>
    if listContainsSeq ("date").data (strLower kv.key).data then
      match parse_redmart_date (pyStrip kv.value) with
      | some d => some d
      | none => locate_invoice_date rest
    else locate_invoice_date rest

/-! ### Tables and `locate_invoice_table` -/

/-- A Textract table as `to_pandas()` materialises it with header inference
disabled: the ordered grid of cell strings, row 0 included. -/
abbrev Table := List (List String)

/-- The test `'Product Name'.lower() in s.lower()` from source line 82. -/
def cellHasProductName (s : String) : Bool :=
  listContainsSeq ("product name").data (strLower s).data

/-- `next((s for s in row0 if 'Product Name'.lower() in s.lower()), None)
is not None`. -/
def rowHasProductName (row : List String) : Bool := row.any cellHasProductName

/-- The `for i, t in enumerate(tables)` loop of `locate_invoice_table`.
`df.values[0]` on a zero-row table raises `IndexError`, embedded as
`.error "IndexError"`. -/
def locate_invoice_table_go (i : Nat) : List Table → Except String Int
  | [] => .ok (-1)
  | t :: rest =>
    match t with
    | [] => .error "IndexError"
    | row0 :: _ =>
      if rowHasProductName row0 then .ok (Int.ofNat i)
      else locate_invoice_table_go (i + 1) rest

/-- `locate_invoice_table` (src/aws_textract_redmart.py lines 69-85). -/
def locate_invoice_table (tables : List Table) : Except String Int :=
  locate_invoice_table_go 0 tables

/-! ### `export_textract_table_to_csv`

`df.replace(r'\n', ' ', regex=True)` compiles the two-character pattern
backslash-`n` as a regular expression, and the regex engine interprets it
as the newline character `U+000A`; likewise backslash-`r` is the carriage
return `U+000D`.  So the two passes replace the *control characters*, one
space per occurrence. -/

/-- First cleaning pass, `df.replace(r'\n', ' ', regex=True)`. -/
def pyReplaceNewline (s : String) : String :=
  ⟨s.data.map (fun c => if c == '\n' then ' ' else c)⟩

/-- Second cleaning pass, `df.replace(r'\r', ' ', regex=True)`. -/
def pyReplaceCarriage (s : String) : String :=
  ⟨s.data.map (fun c => if c == '\r' then ' ' else c)⟩

/-- `document_date.strftime('%Y-%m-%d')` (all components zero-padded; the
year has four digits for the 1000-9999 range used here). -/
def fourDigits (n : Nat) : List Char :=
  [digitCharOf (n / 1000 % 10), digitCharOf (n / 100 % 10),
   digitCharOf (n / 10 % 10), digitCharOf (n % 10)]

/-- Two zero-padded digits (`%d`, `%m` in `strftime`). -/
def twoDigits (n : Nat) : List Char := [digitCharOf (n / 10 % 10), digitCharOf (n % 10)]

/-- `strftime('%Y-%m-%d')`. -/
def strftimeYMD (d : PyDate) : String :=
  ⟨fourDigits d.year ++ ('-' :: (twoDigits d.month ++ ('-' :: twoDigits d.day)))⟩

/-- `export_textract_table_to_csv` (src/aws_textract_redmart.py lines
107-139), as the grid of rows written to the CSV file
(`to_csv(..., index=False, header=False)` emits exactly these rows, with
no extra header line and no index column).  `arrd[0] = 'Date'` raises
`IndexError` on a zero-row table, embedded as `none`. -/
def export_textract_table_to_csv (t : Table) (document_date : Option PyDate) :
    Option (List (List String)) :=
  let df := t.map (fun row => row.map (fun c => pyReplaceCarriage (pyReplaceNewline c)))
  let document_date_str :=
    match document_date with
    | some d => strftimeYMD d
    | none => ""
  if df.length == 0 then none
  else
    let arrd := (List.replicate df.length document_date_str).set 0 "Date"
    some (List.zipWith (fun row v => row ++ [v]) df arrd)

/-! ### `strftime` for the two name-based formats (spec §8's `format(d)`)

Modelled from the spec: §8 requires `parse(format(d)) == d` for each of the
three format strings of source line 29; the repository itself never calls
`strftime` with the first two formats, so their formatting side is modelled
here after CPython `strftime` (English locale).  `%A` needs the weekday of
the date; `weekdayIdx` is Python's `date.weekday()` (Monday = 0), computed
from the proleptic-Gregorian ordinal as in `datetime.date.toordinal`. -/

/-- Days before month `m` in year `y` (0 for January). -/
def daysBeforeMonth (y m : Nat) : Nat :=
  let base :=
    match m with
    | 1 => 0 | 2 => 31 | 3 => 59 | 4 => 90 | 5 => 120 | 6 => 151
    | 7 => 181 | 8 => 212 | 9 => 243 | 10 => 273 | 11 => 304 | 12 => 334
    | _ => 0
  if decide (3 ≤ m) && isLeapYear y then base + 1 else base

/-- `date(y, m, d).toordinal()`: day number with 0001-01-01 ↦ 1. -/
def dateOrdinal (y m d : Nat) : Nat :=
  365 * (y - 1) + ((y - 1) / 4 - (y - 1) / 100) + (y - 1) / 400 + daysBeforeMonth y m + d

/-- `date(y, m, d).weekday()`: Monday = 0 ... Sunday = 6. -/
def weekdayIdx (y m d : Nat) : Nat := (dateOrdinal y m d + 6) % 7

/-- Capitalised English month names, as `strftime('%B')` prints them. -/
def monthNamesCap : List String :=
  ["January", "February", "March", "April", "May", "June",
   "July", "August", "September", "October", "November", "December"]

/-- Capitalised English weekday names, as `strftime('%A')` prints them. -/
def weekdayNamesCap : List String :=
  ["Monday", "Tuesday", "Wednesday", "Thursday", "Friday", "Saturday", "Sunday"]

/-- `strftime('%B')` for month `m`. -/
def monthNameOf (m : Nat) : String := monthNamesCap.getD (m - 1) ""

/-- `strftime('%A')` for a date. -/
def weekdayNameOf (y m d : Nat) : String := weekdayNamesCap.getD (weekdayIdx y m d) ""

/-- `strftime('%d %B, %Y')`. -/
def strftime_d_B_Y (dt : PyDate) : String :=
  ⟨twoDigits dt.day ++ (' ' :: ((monthNameOf dt.month).data ++
    (',' :: (' ' :: fourDigits dt.year))))⟩

/-- `strftime('%A, %d %B, %Y')`. -/
def strftime_A_d_B_Y (dt : PyDate) : String :=
  ⟨(weekdayNameOf dt.year dt.month dt.day).data ++ (',' :: (' ' ::
    (twoDigits dt.day ++ (' ' :: ((monthNameOf dt.month).data ++
      (',' :: (' ' :: fourDigits dt.year)))))))⟩

/-! ### The original script `src/aws-textract-redmart.py` (primed names)

Its three extraction functions differ from the refactored module only in
surface form: a bare `except:` instead of `except ValueError:` in the date
parser (both catch the `ValueError` that `strptime` raises, embedded as
`none`), iteration by `for i in range(len(tables)): t = tables[i]` instead
of `enumerate`, and `!= None` instead of `is not None` (same truth value on
a string or `None`). -/

/-- The format loop of the script's `parse_redmart_date` (lines 32-38). -/
def tryFormats' : List (List Directive) → String → Option PyDate
  | [], _ => none
  | f :: fs, value =>
    match strptimeD f value with
    | some d => some d
    | none => tryFormats' fs value

/-- `parse_redmart_date` (src/aws-textract-redmart.py lines 16-41). -/
def parse_redmart_date' (value : String) : Option PyDate :=
  tryFormats' redmartFormats value

/-- `locate_invoice_date` (src/aws-textract-redmart.py lines 45-67). -/
def locate_invoice_date' : List KeyValue → Option PyDate
  | [] => none
  | kv :: rest =>
    if listContainsSeq ("date").data (strLower kv.key).data then
      match parse_redmart_date' (pyStrip kv.value) with
      | some d => some d
      | none => locate_invoice_date' rest
    else locate_invoice_date' rest

/-- The `for i in range(len(tables))` loop body of the script's
`locate_invoice_table`; the indices `i` are drawn from
`List.range tables.length`, so `tables[i]` (embedded with `getD`, the
default being unreachable) never raises an out-of-range `IndexError` —
only `df.values[0]` on a zero-row table does. -/
def locate_invoice_table_loop' (tables : List Table) : List Nat → Except String Int
  | [] => .ok (-1)
  | i :: is =>
    match tables.getD i [] with
    | [] => .error "IndexError"
    | row0 :: _ =>
      if rowHasProductName row0 then .ok (Int.ofNat i)
      else locate_invoice_table_loop' tables is

/-- `locate_invoice_table` (src/aws-textract-redmart.py lines 71-88). -/
def locate_invoice_table' (tables : List Table) : Except String Int :=
  locate_invoice_table_loop' tables (List.range tables.length)

/-! ### The `__main__` batch loop (src/aws_textract_redmart.py lines 155-173)

The analysis-service call is the collaborator boundary: each input file
comes with the `Except` outcome of `process_invoice_file` for it (`.error`
= the service call raised).  The loop body has no `try`/`except`, so any
exception — from the service call, from `locate_invoice_table` on a
zero-row table, or from `export` — propagates and aborts the whole batch;
the embedding returns the log lines of the files processed, or the first
uncaught error. -/

/-- A Textractor document: its key/value pairs and its tables. -/
structure PyDocument where
  key_values : List KeyValue
  tables : List Table
deriving Repr

/-- One input file of the batch: its name and the outcome of the analysis
service call for it. -/
structure BatchItem where
  fileName : String
  analysisResult : Except String PyDocument

/-- The loop body after `process_invoice_file` returns: locate the date and
the table, export, log. -/
def processDocument (doc : PyDocument) : Except String (List String) :=
  let dt := locate_invoice_date doc.key_values
  match locate_invoice_table doc.tables with
  | .error e => .error e
  | .ok idx =>
    if 0 ≤ idx then
      match export_textract_table_to_csv (doc.tables.getD idx.toNat []) dt with
      | none => .error "IndexError"
      | some _ =>
        if dt.isNone then .ok ["warning: file processed without a date"]
        else .ok ["info: file processed successfully"]
    else .ok ["warning: failed to locate an invoice detail list table"]

/-- The whole `for file in glob.glob(...)` loop: no per-file error
boundary, so the first `.error` aborts the remaining files. -/
def mainLoop : List BatchItem → Except String (List String)
  | [] => .ok []
  | item :: rest =>
    match item.analysisResult with
    | .error e => .error e
    | .ok doc =>
      match processDocument doc with
      | .error e => .error e
      | .ok logs =>
        match mainLoop rest with
        | .error e => .error e
        | .ok logsRest => .ok (logs ++ logsRest)

/-! ### Specification-side definitions (from the claims' words, for
comparison with the embedded code) -/

/-- Spec side: does a table's row 0 contain a `"product name"` cell?  A
zero-row table is treated as non-matching. -/
def tableHasProductName (t : Table) : Bool :=
  match t with
  | [] => false
  | row0 :: _ => rowHasProductName row0

/-- Spec side: index of the first matching table. -/
def firstProductIdx : List Table → Option Nat
  | [] => none
  | t :: ts => if tableHasProductName t then some 0 else (firstProductIdx ts).map (· + 1)

/-- Spec side: one-pass replacement of each newline / carriage-return
character by a single space. -/
def specCleanCell (s : String) : String :=
  ⟨s.data.map (fun c => if c == '\n' || c == '\r' then ' ' else c)⟩

/-- Spec side: `d` formatted as `YYYY-MM-DD`, or the empty string when `d`
is absent. -/
def specDateStr (d : Option PyDate) : String :=
  match d with
  | some dd => strftimeYMD dd
  | none => ""

/-! ### Helper lemmas: digit characters -/

lemma isAsciiDigit_digitCharOf (k : Nat) (hk : k < 10) : isAsciiDigit (digitCharOf k) = true := by
  interval_cases k <;> rfl

lemma digitVal_digitCharOf (k : Nat) (hk : k < 10) : digitVal (digitCharOf k) = k := by
  interval_cases k <;> rfl

lemma pyIsSpace_digitCharOf (k : Nat) (hk : k < 10) : pyIsSpace (digitCharOf k) = false := by
  interval_cases k <;> rfl

lemma daysInMonth_le_31 (y m : Nat) : daysInMonth y m ≤ 31 := by
  unfold daysInMonth
  split
  · split <;> omega
  · split <;> omega

/-! ### Helper lemmas: the committed (priority-first) match of `runDirs` -/

/-- `out` is the head — the regex engine's committed match — of the
alternatives of `runDirs`. -/
def FirstRun (ds : List Directive) (tm : TM) (cs : List Char) (out : TM × List Char) : Prop :=
  ∃ junk, runDirs ds tm cs = out :: junk

lemma firstRun_nil (tm : TM) (cs : List Char) : FirstRun [] tm cs (tm, cs) := ⟨[], rfl⟩

lemma listFlat_append (a b : List (TM × List Char)) (f : TM × List Char → List (TM × List Char)) :
    listFlat (a ++ b) f = listFlat a f ++ listFlat b f := by
  induction a with
  | nil => rfl
  | cons x xs ih => simp [listFlat, ih]

lemma firstRun_cons' {dir : Directive} {ds : List Directive} {tm : TM} {cs : List Char}
    {tm' : TM} {cs' : List Char} {out : TM × List Char}
    (h1 : ∃ alts, stepDir dir tm cs = (tm', cs') :: alts)
    (h2 : FirstRun ds tm' cs' out) : FirstRun (dir :: ds) tm cs out := by
  obtain ⟨alts, h1⟩ := h1
  obtain ⟨j, hj⟩ := h2
  refine ⟨j ++ listFlat alts (fun p => runDirs ds p.1 p.2), ?_⟩
  show listFlat (stepDir dir tm cs) (fun p => runDirs ds p.1 p.2) = _
  rw [h1]
  simp [listFlat, hj]

/-! ### Helper lemmas: single directive steps on formatted output -/

lemma step_ws_one (tm : TM) (c : Char) (cs : List Char) (h : pyIsSpace c = false) :
    ∃ alts, stepDir .wsD tm (' ' :: c :: cs) = (tm, c :: cs) :: alts := by
  have hsp : pyIsSpace ' ' = true := rfl
  refine ⟨[], ?_⟩
  simp [stepDir, wsAlts, hsp, List.dropWhile_cons, h]

lemma step_day_pad (d : Nat) (h1 : 1 ≤ d) (h2 : d ≤ 31) (tm : TM) (cs : List Char) :
    ∃ alts, stepDir .dayD tm (digitCharOf (d / 10 % 10) :: digitCharOf (d % 10) :: cs) =
      ({tm with day := d}, cs) :: alts := by
  interval_cases d <;> exact ⟨_, rfl⟩

lemma step_month_pad (m : Nat) (h1 : 1 ≤ m) (h2 : m ≤ 12) (tm : TM) (cs : List Char) :
    ∃ alts, stepDir .monthD tm (digitCharOf (m / 10 % 10) :: digitCharOf (m % 10) :: cs) =
      ({tm with month := m}, cs) :: alts := by
  interval_cases m <;> exact ⟨_, rfl⟩

lemma step_year4 (y : Nat) (hy : y ≤ 9999) (tm : TM) (cs : List Char) :
    stepDir .yearD tm (digitCharOf (y / 1000 % 10) :: digitCharOf (y / 100 % 10) ::
      digitCharOf (y / 10 % 10) :: digitCharOf (y % 10) :: cs) = [({tm with year := y}, cs)] := by
  have l1 : y / 1000 % 10 < 10 := Nat.mod_lt _ (by norm_num)
  have l2 : y / 100 % 10 < 10 := Nat.mod_lt _ (by norm_num)
  have l3 : y / 10 % 10 < 10 := Nat.mod_lt _ (by norm_num)
  have l4 : y % 10 < 10 := Nat.mod_lt _ (by norm_num)
  have hv : ((digitVal (digitCharOf (y / 1000 % 10)) * 10 + digitVal (digitCharOf (y / 100 % 10))) * 10 +
      digitVal (digitCharOf (y / 10 % 10))) * 10 + digitVal (digitCharOf (y % 10)) = y := by
    rw [digitVal_digitCharOf _ l1, digitVal_digitCharOf _ l2, digitVal_digitCharOf _ l3,
      digitVal_digitCharOf _ l4]
    omega
  simp [stepDir, yearAlts, isAsciiDigit_digitCharOf _ l1, isAsciiDigit_digitCharOf _ l2,
    isAsciiDigit_digitCharOf _ l3, isAsciiDigit_digitCharOf _ l4, hv]

lemma step_weekday_cap (w : Nat) (hw : w < 7) (tm : TM) (cs : List Char) :
    stepDir .weekdayNameD tm ((weekdayNamesCap.getD w "").data ++ cs) = [(tm, cs)] := by
  interval_cases w <;> rfl

/-! ### Helper lemmas: formats that cannot match -/

lemma runDirs_ws_fail (ds : List Directive) (tm : TM) (c : Char) (cs : List Char)
    (h : pyIsSpace c = false) : runDirs (.wsD :: ds) tm (c :: cs) = [] := by
  simp [runDirs, stepDir, wsAlts, h, listFlat]

/-- `'%d %B, %Y'` cannot match an input whose second and third characters
are not whitespace: each `%d` alternative consumes one or two characters
and then `\s+` fails. -/
lemma runDirs_fmt1_fail (tm : TM) (c1 c2 c3 : Char) (cs : List Char)
    (h2 : pyIsSpace c2 = false) (h3 : pyIsSpace c3 = false) :
    runDirs fmt_d_B_Y tm (c1 :: c2 :: c3 :: cs) = [] := by
  show listFlat (stepDir .dayD tm (c1 :: c2 :: c3 :: cs))
    (fun p => runDirs [.wsD, .monthNameD, .litD ',', .wsD, .yearD] p.1 p.2) = []
  simp only [stepDir, dayAlts, List.map_append]
  rw [listFlat_append, listFlat_append, listFlat_append]
  have e2 : ∀ tm' : TM, runDirs [.wsD, .monthNameD, .litD ',', .wsD, .yearD] tm' (c2 :: c3 :: cs) = [] :=
    fun tm' => runDirs_ws_fail _ tm' c2 (c3 :: cs) h2
  have e3 : ∀ tm' : TM, runDirs [.wsD, .monthNameD, .litD ',', .wsD, .yearD] tm' (c3 :: cs) = [] :=
    fun tm' => runDirs_ws_fail _ tm' c3 cs h3
  split <;> split <;> split <;> split <;> simp [listFlat, e2, e3]

lemma matchWeekday_digit_fail (k : Nat) (hk : k < 10) (cs : List Char) :
    matchWeekdayName (digitCharOf k :: cs) = [] := by
  interval_cases k <;> rfl

/-- `'%A, %d %B, %Y'` cannot match an input starting with a digit. -/
lemma runDirs_fmt2_fail_digit (tm : TM) (k : Nat) (hk : k < 10) (cs : List Char) :
    runDirs fmt_A_d_B_Y tm (digitCharOf k :: cs) = [] := by
  show listFlat (stepDir .weekdayNameD tm (digitCharOf k :: cs)) _ = []
  simp [stepDir, matchWeekday_digit_fail k hk, listFlat]

/-- `'%d %B, %Y'` cannot match an input starting with a weekday name. -/
lemma runDirs_fmt1_fail_weekday (w : Nat) (hw : w < 7) (tm : TM) (cs : List Char) :
    runDirs fmt_d_B_Y tm ((weekdayNamesCap.getD w "").data ++ cs) = [] := by
  interval_cases w <;> exact runDirs_fmt1_fail tm _ _ _ _ rfl rfl

/-! ### Helper lemmas: from a committed match to the `strptime` result -/

lemma strptimeD_of_firstRun {dirs : List Directive} {s : String} {y m d : Nat}
    (h : FirstRun dirs {} s.data (⟨y, m, d⟩, []))
    (hv : validYMD y m d = true) :
    strptimeD dirs s = some ⟨y, m, d⟩ := by
  obtain ⟨j, hj⟩ := h
  simp [strptimeD, hj, datetimeOf, hv]

lemma strptimeD_none_of_runDirs_nil {dirs : List Directive} {s : String}
    (h : runDirs dirs {} s.data = []) : strptimeD dirs s = none := by
  simp [strptimeD, h]

lemma validYMD_of (y m d : Nat) (hy1 : 1 ≤ y) (hy2 : y ≤ 9999) (hm1 : 1 ≤ m) (hm2 : m ≤ 12)
    (hd1 : 1 ≤ d) (hd2 : d ≤ daysInMonth y m) : validYMD y m d = true := by
  simp only [validYMD, Bool.and_eq_true, decide_eq_true_eq]
  exact ⟨⟨⟨⟨⟨hy1, hy2⟩, hm1⟩, hm2⟩, hd1⟩, hd2⟩

/-- Parsing `strftime('%d %B, %Y')` output with `'%d %B, %Y'` recovers the
date. -/
lemma strptime_fmt1_format (y m d : Nat) (hy1 : 1 ≤ y) (hy2 : y ≤ 9999)
    (hm1 : 1 ≤ m) (hm2 : m ≤ 12) (hd1 : 1 ≤ d) (hd2 : d ≤ daysInMonth y m) :
    strptimeD fmt_d_B_Y (strftime_d_B_Y ⟨y, m, d⟩) = some ⟨y, m, d⟩ := by
  have hd31 : d ≤ 31 := le_trans hd2 (daysInMonth_le_31 y m)
  have hv : validYMD y m d = true := validYMD_of y m d hy1 hy2 hm1 hm2 hd1 hd2
  have hds : pyIsSpace (digitCharOf (y / 1000 % 10)) = false :=
    pyIsSpace_digitCharOf _ (Nat.mod_lt _ (by norm_num))
  interval_cases m <;>
    exact strptimeD_of_firstRun
      (firstRun_cons' (step_day_pad d hd1 hd31 {} _)
        (firstRun_cons' (step_ws_one _ _ _ rfl)
          (firstRun_cons' ⟨_, rfl⟩
            (firstRun_cons' ⟨_, rfl⟩
              (firstRun_cons' (step_ws_one _ _ _ hds)
                (firstRun_cons' ⟨[], step_year4 y hy2 _ _⟩
                  (firstRun_nil _ _)))))))
      hv

/-- Parsing `strftime('%A, %d %B, %Y')` output with `'%A, %d %B, %Y'`
recovers the date (the weekday name is consumed but never checked). -/
lemma strptime_fmt2_format (y m d : Nat) (hy1 : 1 ≤ y) (hy2 : y ≤ 9999)
    (hm1 : 1 ≤ m) (hm2 : m ≤ 12) (hd1 : 1 ≤ d) (hd2 : d ≤ daysInMonth y m) :
    strptimeD fmt_A_d_B_Y (strftime_A_d_B_Y ⟨y, m, d⟩) = some ⟨y, m, d⟩ := by
  have hd31 : d ≤ 31 := le_trans hd2 (daysInMonth_le_31 y m)
  have hv : validYMD y m d = true := validYMD_of y m d hy1 hy2 hm1 hm2 hd1 hd2
  have hw : weekdayIdx y m d < 7 := Nat.mod_lt _ (by norm_num)
  have hds : pyIsSpace (digitCharOf (y / 1000 % 10)) = false :=
    pyIsSpace_digitCharOf _ (Nat.mod_lt _ (by norm_num))
  have hdd : pyIsSpace (digitCharOf (d / 10 % 10)) = false :=
    pyIsSpace_digitCharOf _ (Nat.mod_lt _ (by norm_num))
  interval_cases m <;>
    exact strptimeD_of_firstRun
      (firstRun_cons' ⟨[], step_weekday_cap _ hw {} _⟩
        (firstRun_cons' ⟨_, rfl⟩
          (firstRun_cons' (step_ws_one _ _ _ hdd)
            (firstRun_cons' (step_day_pad d hd1 hd31 _ _)
              (firstRun_cons' (step_ws_one _ _ _ rfl)
                (firstRun_cons' ⟨_, rfl⟩
                  (firstRun_cons' ⟨_, rfl⟩
                    (firstRun_cons' (step_ws_one _ _ _ hds)
                      (firstRun_cons' ⟨[], step_year4 y hy2 _ _⟩
                        (firstRun_nil _ _)))))))))) 
      hv

/-- Parsing `strftime('%Y-%m-%d')` output with `'%Y-%m-%d'` recovers the
date. -/
lemma strptime_fmt3_format (y m d : Nat) (hy1 : 1 ≤ y) (hy2 : y ≤ 9999)
    (hm1 : 1 ≤ m) (hm2 : m ≤ 12) (hd1 : 1 ≤ d) (hd2 : d ≤ daysInMonth y m) :
    strptimeD fmt_Y_m_d (strftimeYMD ⟨y, m, d⟩) = some ⟨y, m, d⟩ := by
  have hd31 : d ≤ 31 := le_trans hd2 (daysInMonth_le_31 y m)
  have hv : validYMD y m d = true := validYMD_of y m d hy1 hy2 hm1 hm2 hd1 hd2
  exact strptimeD_of_firstRun
    (firstRun_cons' ⟨[], step_year4 y hy2 {} _⟩
      (firstRun_cons' ⟨_, rfl⟩
        (firstRun_cons' (step_month_pad m hm1 hm2 _ _)
          (firstRun_cons' ⟨_, rfl⟩
            (firstRun_cons' (step_day_pad d hd1 hd31 _ _)
              (firstRun_nil _ _))))))
    hv

/-! ### Claim C7 -/

/-- C7: for every calendar date `d` in a sane range (year 1000-9999) and
for each of the three supported patterns (`'%d %B, %Y'`,
`'%A, %d %B, %Y'`, `'%Y-%m-%d'`), parsing the string obtained by
formatting `d` under that pattern returns `d`: `parse(format(d)) = d`. -/
theorem c7_parse_format_roundtrip (y m d : Nat) (hy1 : 1000 ≤ y) (hy2 : y ≤ 9999)
    (hm1 : 1 ≤ m) (hm2 : m ≤ 12) (hd1 : 1 ≤ d) (hd2 : d ≤ daysInMonth y m) :
    parse_redmart_date (strftime_d_B_Y ⟨y, m, d⟩) = some ⟨y, m, d⟩ ∧
    parse_redmart_date (strftime_A_d_B_Y ⟨y, m, d⟩) = some ⟨y, m, d⟩ ∧
    parse_redmart_date (strftimeYMD ⟨y, m, d⟩) = some ⟨y, m, d⟩ := by
  have hy1' : 1 ≤ y := by omega
  refine ⟨?_, ?_, ?_⟩
  · simp [parse_redmart_date, redmartFormats, tryFormats,
      strptime_fmt1_format y m d hy1' hy2 hm1 hm2 hd1 hd2]
  · have hw : weekdayIdx y m d < 7 := Nat.mod_lt _ (by norm_num)
    have h1 : strptimeD fmt_d_B_Y (strftime_A_d_B_Y ⟨y, m, d⟩) = none :=
      strptimeD_none_of_runDirs_nil (runDirs_fmt1_fail_weekday (weekdayIdx y m d) hw {} _)
    simp [parse_redmart_date, redmartFormats, tryFormats, h1,
      strptime_fmt2_format y m d hy1' hy2 hm1 hm2 hd1 hd2]
  · have h1 : strptimeD fmt_d_B_Y (strftimeYMD ⟨y, m, d⟩) = none :=
      strptimeD_none_of_runDirs_nil (runDirs_fmt1_fail {} _ _ _ _
        (pyIsSpace_digitCharOf (y / 100 % 10) (Nat.mod_lt _ (by norm_num)))
        (pyIsSpace_digitCharOf (y / 10 % 10) (Nat.mod_lt _ (by norm_num))))
    have h2 : strptimeD fmt_A_d_B_Y (strftimeYMD ⟨y, m, d⟩) = none :=
      strptimeD_none_of_runDirs_nil (runDirs_fmt2_fail_digit {} (y / 1000 % 10)
        (Nat.mod_lt _ (by norm_num)) _)
    simp [parse_redmart_date, redmartFormats, tryFormats, h1, h2,
      strptime_fmt3_format y m d hy1' hy2 hm1 hm2 hd1 hd2]

/-- Witness for C7 at the concrete date 2018-06-22. -/
theorem c7_parse_format_roundtrip_witness :
    parse_redmart_date (strftime_d_B_Y ⟨2018, 6, 22⟩) = some ⟨2018, 6, 22⟩ ∧
    parse_redmart_date (strftime_A_d_B_Y ⟨2018, 6, 22⟩) = some ⟨2018, 6, 22⟩ ∧
    parse_redmart_date (strftimeYMD ⟨2018, 6, 22⟩) = some ⟨2018, 6, 22⟩ :=
  c7_parse_format_roundtrip 2018 6 22 (by norm_num) (by norm_num) (by norm_num)
    (by norm_num) (by norm_num) (by norm_num [daysInMonth])

/-! ### Claim C5 -/

/-- C5: `parse_redmart_date` tries the three date patterns in fixed
priority order (day month-name comma year; weekday comma day month-name
comma year; ISO year-month-day), returns the first successful parse, and
returns `None` when none match; in particular on the spec's four example
strings. -/
theorem c5_parse_priority_and_examples :
    (∀ value : String, parse_redmart_date value =
      match strptimeD fmt_d_B_Y value with
      | some d => some d
      | none =>
        match strptimeD fmt_A_d_B_Y value with
        | some d => some d
        | none => strptimeD fmt_Y_m_d value) ∧
    parse_redmart_date "22 June, 2018" = some ⟨2018, 6, 22⟩ ∧
    parse_redmart_date "Friday, 22 June, 2018" = some ⟨2018, 6, 22⟩ ∧
    parse_redmart_date "2019-10-31" = some ⟨2019, 10, 31⟩ ∧
    parse_redmart_date "not a date" = none := by
  refine ⟨?_, rfl, rfl, rfl, rfl⟩
  intro value
  cases h1 : strptimeD fmt_d_B_Y value <;>
    cases h2 : strptimeD fmt_A_d_B_Y value <;>
      cases h3 : strptimeD fmt_Y_m_d value <;>
        simp [parse_redmart_date, redmartFormats, tryFormats, h1, h2, h3]

/-! ### Claim C10 -/

/-- C10: `parse_redmart_date` does not validate the weekday name against
the parsed calendar date: `"Monday, 22 June, 2018"` parses to 2018-06-22
even though 22 June 2018 was a Friday — indeed every one of the seven
weekday names is accepted in front of the same date. -/
theorem c10_weekday_not_validated :
    parse_redmart_date "Monday, 22 June, 2018" = some ⟨2018, 6, 22⟩ ∧
    weekdayNameOf 2018 6 22 = "Friday" ∧ ("Monday" : String) ≠ "Friday" ∧
    (weekdayNamesCap.all fun w =>
      parse_redmart_date ⟨w.data ++ (", 22 June, 2018").data⟩ ==
        some ⟨2018, 6, 22⟩) = true := by
  exact ⟨rfl, rfl, by decide, rfl⟩

/-! ### Claim C4 -/

/-- C4: `locate_invoice_date` iterates the key/value pairs in order,
matches keys by a case-insensitive substring test for `"date"`, trims the
matched value, and returns the parsed date of the first pair whose value
parses successfully (`none` when no key contains `"date"` or no matched
value parses); on `[("Foo","bar"), ("Invoice Date:", "23 June, 2018")]`
it returns 2018-06-23. -/
theorem c4_locate_invoice_date_spec :
    (∀ kvs : List KeyValue, locate_invoice_date kvs =
      kvs.findSome? fun kv =>
        if listContainsSeq ("date").data (strLower kv.key).data then
          parse_redmart_date (pyStrip kv.value)
        else none) ∧
    locate_invoice_date [⟨"Foo", "bar"⟩, ⟨"Invoice Date:", "23 June, 2018"⟩] =
      some ⟨2018, 6, 23⟩ := by
  refine ⟨?_, rfl⟩
  intro kvs
  induction kvs with
  | nil => rfl
  | cons kv rest ih =>
    cases hc : listContainsSeq ("date").data (strLower kv.key).data with
    | false => simp [locate_invoice_date, List.findSome?, hc, ih]
    | true =>
      cases hp : parse_redmart_date (pyStrip kv.value) <;>
        simp [locate_invoice_date, List.findSome?, hc, hp, ih]

/-! ### Claim C2 -/

lemma locate_go_spec (ts : List Table) (i : Nat) (h : ∀ t ∈ ts, t ≠ []) :
    locate_invoice_table_go i ts =
      .ok (match firstProductIdx ts with
           | some j => Int.ofNat (i + j)
           | none => -1) := by
  induction ts generalizing i with
  | nil => rfl
  | cons t rest ih =>
    have ht : t ≠ [] := h t (by simp)
    obtain ⟨r0, tr, rfl⟩ : ∃ r0 tr, t = r0 :: tr := by
      cases t with
      | nil => exact absurd rfl ht
      | cons a b => exact ⟨a, b, rfl⟩
    have h' : ∀ t ∈ rest, t ≠ [] := fun t' ht' => h t' (by simp [ht'])
    cases hm : rowHasProductName r0 with
    | true => simp [locate_invoice_table_go, firstProductIdx, tableHasProductName, hm]
    | false =>
      rw [show locate_invoice_table_go i ((r0 :: tr) :: rest) =
        locate_invoice_table_go (i + 1) rest by simp [locate_invoice_table_go, hm]]
      rw [ih (i + 1) h']
      cases hfi : firstProductIdx rest <;>
        simp [firstProductIdx, tableHasProductName, hm, hfi]
      omega

/-- C2: for every sequence of (non-empty) tables, `locate_invoice_table`
returns the index of the first table whose row 0 contains a cell that
case-insensitively contains the substring `"product name"`, and returns
`-1` when no table satisfies this. -/
theorem c2_locate_invoice_table_spec (tables : List Table) (h : ∀ t ∈ tables, t ≠ []) :
    locate_invoice_table tables =
      .ok (match firstProductIdx tables with
           | some i => Int.ofNat i
           | none => -1) := by
  have hgo := locate_go_spec tables 0 h
  cases hfi : firstProductIdx tables <;> rw [hfi] at hgo <;>
    simpa [locate_invoice_table, hfi] using hgo

/-- Witness for C2 on the spec's two example batches: the table whose
header row holds "Product Name" is found at index 1; a batch without such
a table yields -1. -/
theorem c2_locate_invoice_table_witness :
    locate_invoice_table [[["Description", "Qty"], ["Apples", "1"]],
      [["Product Name", "Price"], ["Widget", "9.99"]]] = .ok 1 ∧
    locate_invoice_table [[["Description", "Qty"], ["Apples", "1"]]] = .ok (-1) := by
  constructor
  · rw [c2_locate_invoice_table_spec _ (by decide)]
    rfl
  · rw [c2_locate_invoice_table_spec _ (by decide)]
    rfl

/-! ### Claim C3 -/

/-- C3 (code bug): a zero-row table makes `locate_invoice_table` raise
`IndexError` (`df.values[0]` on an empty DataFrame) instead of treating
the table as non-matching; the claimed `-1` / first-match result is never
reached, even when a matching table follows. -/
theorem c3_empty_table_raises :
    locate_invoice_table [([] : Table)] = .error "IndexError" ∧
    locate_invoice_table [([] : Table), [["Product Name", "Price"]]] = .error "IndexError" :=
  ⟨rfl, rfl⟩

/-! ### Claims C1 and C6: the export grid -/

lemma clean_two_pass (s : String) : pyReplaceCarriage (pyReplaceNewline s) = specCleanCell s := by
  have hfun : ∀ c : Char,
      (if (if c == '\n' then ' ' else c) == '\r' then ' ' else (if c == '\n' then ' ' else c)) =
        (if c == '\n' || c == '\r' then ' ' else c) := by
    intro c
    by_cases h1 : c = '\n'
    · subst h1; rfl
    · by_cases h2 : c = '\r'
      · subst h2; rfl
      · have b1 : (c == '\n') = false := by simp [h1]
        have b2 : (c == '\r') = false := by simp [h2]
        simp [b1, b2]
  show String.mk ((s.data.map _).map _) = String.mk (s.data.map _)
  rw [List.map_map]
  exact congrArg String.mk (List.map_congr_left fun c _ => hfun c)

lemma zipWith_append_replicate (l : List (List String)) (v : String) :
    List.zipWith (fun row x => row ++ [x]) l (List.replicate l.length v) =
      l.map (fun row => row ++ [v]) := by
  induction l with
  | nil => rfl
  | cons r rs ih => simp [List.replicate_succ, ih]

/-- The full shape of the export grid on a non-empty table. -/
lemma export_cons_eq (r0 : List String) (rest : List (List String)) (d : Option PyDate) :
    export_textract_table_to_csv (r0 :: rest) d =
      some ((r0.map specCleanCell ++ ["Date"]) ::
        rest.map (fun r => r.map specCleanCell ++ [specDateStr d])) := by
  have hstr : (match d with | some dd => strftimeYMD dd | none => "") = specDateStr d := rfl
  unfold export_textract_table_to_csv
  simp only [clean_two_pass, hstr, List.map_cons, List.length_cons, List.length_map]
  rw [if_neg (by simp)]
  rw [List.replicate_succ, List.set_cons_zero, List.zipWith_cons_cons]
  rw [show List.replicate rest.length (specDateStr d) =
    List.replicate (rest.map (fun r => r.map specCleanCell)).length (specDateStr d) by
      simp]
  rw [zipWith_append_replicate, List.map_map]
  rfl

/-- C1's counterexample: a cell containing a newline character is cleaned,
so row 0 of the output is NOT the original header cells followed by
`"Date"`. -/
theorem c1_counterexample :
    export_textract_table_to_csv [["a\nb"]] none = some [["a b", "Date"]] ∧
    (["a b", "Date"] : List String) ≠ ["a\nb", "Date"] :=
  ⟨rfl, by decide⟩

/-- C1 (amended): for every non-empty table and every optional date `d`,
export produces a grid whose row 0 is the original header cells — with
each newline / carriage-return character replaced by a space — followed by
the literal label `"Date"`, and every subsequent row is the original
row's cells (same replacement) followed by `d` formatted as `YYYY-MM-DD`,
or by the empty string when `d` is absent; no extra header line or index
column is emitted. -/
theorem c1_export_grid (r0 : List String) (rest : List (List String)) (d : Option PyDate) :
    export_textract_table_to_csv (r0 :: rest) d =
      some ((r0.map specCleanCell ++ ["Date"]) ::
        rest.map (fun r => r.map specCleanCell ++ [specDateStr d])) :=
  export_cons_eq r0 rest d

/-- C6's counterexample: a literal two-character backslash-`n` sequence is
NOT replaced by a space (the pattern `r'\n'`, being a regex, matches the
newline control character instead); the output cell still contains the
sequence. -/
theorem c6_counterexample :
    export_textract_table_to_csv [["a\\nb"]] none = some [["a\\nb", "Date"]] ∧
    listContainsSeq ("\\n").data ("a\\nb").data = true ∧
    (("a\\nb" : String) ≠ "a b") :=
  ⟨rfl, rfl, by decide⟩

/-- C6 (amended): in export, every occurrence of the newline (U+000A) and
carriage-return (U+000D) control characters inside every cell value
(header cells included) is replaced with a single space: dropping the
appended Date column from the output grid yields exactly the input cells
mapped through that replacement. -/
theorem c6_cells_cleaned (r0 : List String) (rest : List (List String)) (d : Option PyDate) :
    (export_textract_table_to_csv (r0 :: rest) d).map (fun g => g.map List.dropLast) =
      some ((r0 :: rest).map fun r => r.map specCleanCell) := by
  rw [export_cons_eq]
  simp [List.map_map, List.dropLast_concat]

/-! ### Claim C8 -/

/-- C8 (code bug): the batch loop has no per-file error boundary.  On a
two-file batch whose first file's analysis call raises, the whole batch
aborts with that error and the second file — which on its own processes
successfully — is never reached. -/
theorem c8_batch_aborts_on_first_error :
    mainLoop [⟨"a.pdf", .error "ConnectionError"⟩,
      ⟨"b.pdf", .ok ⟨[⟨"Invoice Date:", "23 June, 2018"⟩],
        [[["Product Name", "Price"], ["Widget", "9.99"]]]⟩⟩] = .error "ConnectionError" ∧
    mainLoop [⟨"b.pdf", .ok ⟨[⟨"Invoice Date:", "23 June, 2018"⟩],
      [[["Product Name", "Price"], ["Widget", "9.99"]]]⟩⟩] =
        .ok ["info: file processed successfully"] :=
  ⟨rfl, rfl⟩

/-! ### Claim C9 -/

lemma tryFormats_eq (fs : List (List Directive)) (v : String) :
    tryFormats' fs v = tryFormats fs v := by
  induction fs with
  | nil => rfl
  | cons f fs ih =>
    cases h : strptimeD f v <;> simp [tryFormats, tryFormats', h, ih]

lemma locate_date_eq (kvs : List KeyValue) :
    locate_invoice_date' kvs = locate_invoice_date kvs := by
  have hp : ∀ v, parse_redmart_date' v = parse_redmart_date v :=
    fun v => tryFormats_eq redmartFormats v
  induction kvs with
  | nil => rfl
  | cons kv rest ih =>
    cases hc : listContainsSeq ("date").data (strLower kv.key).data with
    | false => simp [locate_invoice_date, locate_invoice_date', hc, ih]
    | true =>
      cases hv : parse_redmart_date (pyStrip kv.value) <;>
        simp [locate_invoice_date, locate_invoice_date', hc, hp, hv, ih]

lemma getD_append_cons (pre : List Table) (t : Table) (ts : List Table) :
    (pre ++ t :: ts).getD pre.length [] = t := by
  induction pre with
  | nil => rfl
  | cons p ps ih => simpa using ih

lemma locate_loop_eq (suf : List Table) : ∀ pre : List Table,
    locate_invoice_table_loop' (pre ++ suf) (List.range' pre.length suf.length) =
      locate_invoice_table_go pre.length suf := by
  induction suf with
  | nil => intro pre; rfl
  | cons t ts ih =>
    intro pre
    have hg : (pre ++ t :: ts).getD pre.length [] = t := getD_append_cons pre t ts
    have ihx := ih (pre ++ [t])
    rw [List.append_assoc] at ihx
    simp only [List.singleton_append, List.length_append, List.length_cons, List.length_nil,
      Nat.zero_add, Nat.add_zero] at ihx
    show locate_invoice_table_loop' (pre ++ t :: ts)
      (pre.length :: List.range' (pre.length + 1) ts.length) =
        locate_invoice_table_go pre.length (t :: ts)
    simp only [locate_invoice_table_loop']
    rw [hg]
    cases t with
    | nil => rfl
    | cons r0 tr =>
      cases hm : rowHasProductName r0 with
      | true => simp [locate_invoice_table_go, hm]
      | false => simp [locate_invoice_table_go, hm, ihx]

lemma locate_table_eq (tables : List Table) :
    locate_invoice_table' tables = locate_invoice_table tables := by
  have h := locate_loop_eq tables []
  simpa [locate_invoice_table', locate_invoice_table, List.range_eq_range'] using h

/-- C9: the two source files implement the same extraction logic — the
script's `parse_redmart_date`, `locate_invoice_date` and
`locate_invoice_table` (primed) agree with the refactored module's
versions on every input. -/
theorem c9_files_agree :
    (∀ v : String, parse_redmart_date' v = parse_redmart_date v) ∧
    (∀ kvs : List KeyValue, locate_invoice_date' kvs = locate_invoice_date kvs) ∧
    (∀ tables : List Table, locate_invoice_table' tables = locate_invoice_table tables) :=
  ⟨fun v => tryFormats_eq redmartFormats v, locate_date_eq, locate_table_eq⟩
